import Mathlib

/-!
Shallow embedding of `src/fraud-detection-system.js`: the transaction and
user-profile data model (mongoose schemas with their defaults), the four
risk rules of `FraudDetectionService.analyzeTransaction`, the status
classification `determineTransactionStatus`, the profile adapter
`updateUserProfile`, and the controller `exports.analyzeTransaction`
(field validation by JS truthiness, lazy profile creation, persistence)
as functions over an explicit store state.  Amounts are rationals,
timestamps are integer milliseconds, and `getHours` models the hour-of-day
extraction `new Date(ts).getHours()` with the timezone offset fixed at zero.
-/

/-- Transaction status enum of the mongoose transaction schema. -/
inductive Status where
  | pending
  | completed
  | flagged
  | rejected
deriving DecidableEq

/-- The `risk` subdocument stored on a transaction after analysis. -/
structure Risk where
  score : ℕ
  factors : List String
deriving DecidableEq

/-- A transaction record (`models/Transaction.js`); `timestamp` is in
milliseconds. -/
structure Transaction where
  userId : String
  amount : ℚ
  receiverAddress : String
  country : String
  timestamp : ℤ
  status : Status
  risk : Option Risk
deriving DecidableEq

/-- The `frequencyThreshold` subdocument of a user profile. -/
structure FrequencyThreshold where
  count : ℕ
  timeWindowHours : ℚ
deriving DecidableEq

/-- A user behavioral profile (`models/User.js`). -/
structure User where
  userId : String
  usualTransactionTimes : List ℤ
  usualCountries : List String
  averageTransactionAmount : ℚ
  transactionCount : ℕ
  highRiskThreshold : ℚ
  frequencyThreshold : FrequencyThreshold
deriving DecidableEq

/-- Schema defaults: the profile created by `new User({ userId })`. -/
def defaultUser (userId : String) : User :=
  { userId := userId
    usualTransactionTimes := []
    usualCountries := []
    averageTransactionAmount := 0
    transactionCount := 0
    highRiskThreshold := 1000
    frequencyThreshold := { count := 3, timeWindowHours := 24 } }

/-- Hour-of-day of a millisecond timestamp, modelling
`new Date(timestamp).getHours()` at timezone offset zero. -/
def getHours (timestamp : ℤ) : ℤ :=
  timestamp / 3600000 % 24

/-- The four risk rules of `analyzeTransaction` (source lines 101-135),
applied in order to an accumulating factor list and score; the recent
transactions of rule 4 are taken as an input, as the recency query
supplies them. -/
def evaluateRules (transaction : Transaction) (user : User)
    (recentTransactions : List Transaction) : List String × ℕ :=
  let riskFactors : List String := []
  let riskScore : ℕ := 0
  let (riskFactors, riskScore) :=
    if transaction.amount > user.highRiskThreshold then
      (riskFactors ++ ["high_amount"], riskScore + 30)
    else (riskFactors, riskScore)
  let (riskFactors, riskScore) :=
    if 0 < user.usualCountries.length ∧ transaction.country ∉ user.usualCountries then
      (riskFactors ++ ["unusual_country"], riskScore + 25)
    else (riskFactors, riskScore)
  let transactionHour := getHours transaction.timestamp
  let (riskFactors, riskScore) :=
    if 0 < user.usualTransactionTimes.length ∧
        transactionHour ∉ user.usualTransactionTimes then
      (riskFactors ++ ["unusual_time"], riskScore + 15)
    else (riskFactors, riskScore)
  let (riskFactors, riskScore) :=
    if user.frequencyThreshold.count ≤ recentTransactions.length then
      let highAmountRecent :=
        (recentTransactions.filter
          (fun t => decide (t.amount > user.averageTransactionAmount * 1.5))).length
      if 2 ≤ highAmountRecent then
        (riskFactors ++ ["high_frequency_large_amounts"], riskScore + 30)
      else (riskFactors, riskScore)
    else (riskFactors, riskScore)
  (riskFactors, riskScore)

/-- `FraudDetectionService.determineTransactionStatus`. -/
def determineTransactionStatus (riskScore : ℕ) : Status :=
  if riskScore ≥ 70 then .rejected
  else if riskScore ≥ 40 then .flagged
  else .completed

/-- `FraudDetectionService.updateUserProfile`: fold the amount into the
running mean using the old count, increment the count, and append the
transaction hour and country to the learned lists when absent. -/
def updateUserProfile (user : User) (transaction : Transaction) : User :=
  let newAverage :=
    (user.averageTransactionAmount * (user.transactionCount : ℚ) + transaction.amount) /
      ((user.transactionCount : ℚ) + 1)
  let transactionHour := getHours transaction.timestamp
  { user with
    averageTransactionAmount := newAverage
    transactionCount := user.transactionCount + 1
    usualTransactionTimes :=
      if transactionHour ∉ user.usualTransactionTimes then
        user.usualTransactionTimes ++ [transactionHour]
      else user.usualTransactionTimes
    usualCountries :=
      if transaction.country ∉ user.usualCountries then
        user.usualCountries ++ [transaction.country]
      else user.usualCountries }

/-- The profile adapter applied to a whole sequence of transactions. -/
def applyAll (user : User) (transactions : List Transaction) : User :=
  transactions.foldl updateUserProfile user

/-- The store state: the persisted user profiles and transactions. -/
structure State where
  users : List User
  transactions : List Transaction
deriving DecidableEq

/-- `User.findOne({ userId })`. -/
def findUser (s : State) (userId : String) : Option User :=
  s.users.find? (fun u => u.userId == userId)

/-- `user.save()`: insert-or-replace a profile, keyed by `userId`. -/
def putUser (s : State) (u : User) : State :=
  if s.users.any (fun v => v.userId == u.userId) then
    { s with users := s.users.map (fun v => if v.userId == u.userId then u else v) }
  else
    { s with users := s.users ++ [u] }

/-- `User.findOne` followed by lazy creation with defaults when the user
does not exist (source lines 93-99). -/
def getOrCreateUser (s : State) (userId : String) : User × State :=
  match findUser s userId with
  | some u => (u, s)
  | none => (defaultUser userId, putUser s (defaultUser userId))

/-- The recency query feeding rule 4 (source lines 121-126): the user's
stored transactions with `timestamp ≥ now − windowHours`. -/
def recentTransactionsOf (s : State) (now : ℤ) (user : User)
    (userId : String) : List Transaction :=
  s.transactions.filter (fun t =>
    t.userId == userId &&
      decide ((now : ℚ) - user.frequencyThreshold.timeWindowHours * 3600000
        ≤ (t.timestamp : ℚ)))

/-- The verdict returned by `analyzeTransaction`. -/
structure RiskAnalysis where
  riskScore : ℕ
  riskFactors : List String
  status : Status
deriving DecidableEq

/-- `FraudDetectionService.analyzeTransaction` over an explicit store
state: fetch-or-create the profile, run the four rules, apply the profile
adapter unconditionally, and return the verdict. -/
def analyzeTransactionS (now : ℤ) (s : State) (transaction : Transaction) :
    RiskAnalysis × State :=
  let (user, s1) := getOrCreateUser s transaction.userId
  let recentTransactions := recentTransactionsOf s1 now user transaction.userId
  let (riskFactors, riskScore) := evaluateRules transaction user recentTransactions
  let s2 := putUser s1 (updateUserProfile user transaction)
  ({ riskScore := riskScore, riskFactors := riskFactors,
     status := determineTransactionStatus riskScore }, s2)

/-- The request body of `POST /transactions/analyze`; each field may be
absent. -/
structure AnalyzeRequest where
  userId : Option String
  amount : Option ℚ
  receiverAddress : Option String
  country : Option String
deriving DecidableEq

/-- The controller's response, reduced to what the core determines:
a success payload or the 400 validation failure. -/
inductive AnalyzeResponse where
  | success (amount : ℚ) (status : Status) (risk : Risk)
  | validationError
deriving DecidableEq

/-- `exports.analyzeTransaction` (controller): destructure the body,
reject when any required field is JS-falsy (`!userId || !amount ||
!receiverAddress || !country`), otherwise build the transaction with
`timestamp = now`, analyze it, and persist it with its risk and status. -/
def controllerAnalyze (now : ℤ) (s : State) (req : AnalyzeRequest) :
    AnalyzeResponse × State :=
  match req.userId, req.amount, req.receiverAddress, req.country with
  | some userId, some amount, some receiverAddress, some country =>
    if userId ≠ "" ∧ amount ≠ 0 ∧ receiverAddress ≠ "" ∧ country ≠ "" then
      let transaction : Transaction :=
        { userId := userId, amount := amount,
          receiverAddress := receiverAddress, country := country,
          timestamp := now, status := .pending, risk := none }
      let (riskAnalysis, s1) := analyzeTransactionS now s transaction
      let transaction2 :=
        { transaction with
          risk := some { score := riskAnalysis.riskScore,
                         factors := riskAnalysis.riskFactors }
          status := riskAnalysis.status }
      (.success amount riskAnalysis.status
        { score := riskAnalysis.riskScore, factors := riskAnalysis.riskFactors },
        { s1 with transactions := s1.transactions ++ [transaction2] })
    else (.validationError, s)
  | _, _, _, _ => (.validationError, s)

/-- C1: for every transaction, profile, and list of recent transactions,
the evaluator's score is exactly the sum of the points of the triggered
rules (30 for a high amount, 25 for an unusual country, 15 for an unusual
hour, 30 for high frequency with at least two large recent amounts), and
the factor list is exactly the tags of the triggered rules in rule order,
each appearing once. -/
theorem evaluateRules_spec :
    ∀ (transaction : Transaction) (user : User)
      (recentTransactions : List Transaction),
      (evaluateRules transaction user recentTransactions).2 =
          (if transaction.amount > user.highRiskThreshold then 30 else 0) +
          (if 0 < user.usualCountries.length ∧
              transaction.country ∉ user.usualCountries then 25 else 0) +
          (if 0 < user.usualTransactionTimes.length ∧
              getHours transaction.timestamp ∉ user.usualTransactionTimes
            then 15 else 0) +
          (if user.frequencyThreshold.count ≤ recentTransactions.length ∧
              2 ≤ (recentTransactions.filter
                (fun t => decide (t.amount > user.averageTransactionAmount * 1.5))).length
            then 30 else 0) ∧
      (evaluateRules transaction user recentTransactions).1 =
          (if transaction.amount > user.highRiskThreshold
            then ["high_amount"] else []) ++
          (if 0 < user.usualCountries.length ∧
              transaction.country ∉ user.usualCountries
            then ["unusual_country"] else []) ++
          (if 0 < user.usualTransactionTimes.length ∧
              getHours transaction.timestamp ∉ user.usualTransactionTimes
            then ["unusual_time"] else []) ++
          (if user.frequencyThreshold.count ≤ recentTransactions.length ∧
              2 ≤ (recentTransactions.filter
                (fun t => decide (t.amount > user.averageTransactionAmount * 1.5))).length
            then ["high_frequency_large_amounts"] else []) := by
  intro transaction user recentTransactions
  simp only [evaluateRules]
  split_ifs <;> simp_all

/-- C2: the classification is `rejected` iff the score is at least 70,
`flagged` iff it is in [40, 70), `completed` iff it is below 40; the
boundary scores 39, 40, 69, 70 classify as completed, flagged, flagged,
rejected. -/
theorem determineTransactionStatus_spec :
    (∀ riskScore : ℕ,
      (determineTransactionStatus riskScore = .rejected ↔ 70 ≤ riskScore) ∧
      (determineTransactionStatus riskScore = .flagged ↔
        40 ≤ riskScore ∧ riskScore < 70) ∧
      (determineTransactionStatus riskScore = .completed ↔ riskScore < 40)) ∧
    determineTransactionStatus 39 = .completed ∧
    determineTransactionStatus 40 = .flagged ∧
    determineTransactionStatus 69 = .flagged ∧
    determineTransactionStatus 70 = .rejected := by
  refine ⟨fun riskScore => ?_, by decide, by decide, by decide, by decide⟩
  unfold determineTransactionStatus
  split_ifs <;> refine ⟨?_, ?_, ?_⟩ <;> simp_all <;> omega

/-- C3: the adapter recomputes the running mean with the old count and then
increments the count; folding amounts 100, 200, 300 into a fresh profile
yields average 200 and count 3. -/
theorem updateUserProfile_mean :
    (∀ (user : User) (transaction : Transaction),
      (updateUserProfile user transaction).averageTransactionAmount =
        (user.averageTransactionAmount * (user.transactionCount : ℚ) +
          transaction.amount) / ((user.transactionCount : ℚ) + 1) ∧
      (updateUserProfile user transaction).transactionCount =
        user.transactionCount + 1) ∧
    (applyAll (defaultUser "u")
        [⟨"u", 100, "r", "US", 0, .pending, none⟩,
         ⟨"u", 200, "r", "US", 0, .pending, none⟩,
         ⟨"u", 300, "r", "US", 0, .pending, none⟩]).averageTransactionAmount
      = 200 ∧
    (applyAll (defaultUser "u")
        [⟨"u", 100, "r", "US", 0, .pending, none⟩,
         ⟨"u", 200, "r", "US", 0, .pending, none⟩,
         ⟨"u", 300, "r", "US", 0, .pending, none⟩]).transactionCount = 3 := by
  refine ⟨fun user transaction => ⟨rfl, rfl⟩, ?_, ?_⟩ <;>
    norm_num [applyAll, updateUserProfile, defaultUser, getHours]

/-- C10: the adapter changes only the learned fields; the profile's
`userId`, `highRiskThreshold` and `frequencyThreshold` (count and window)
are returned unchanged. -/
theorem updateUserProfile_frame :
    ∀ (user : User) (transaction : Transaction),
      (updateUserProfile user transaction).userId = user.userId ∧
      (updateUserProfile user transaction).highRiskThreshold =
        user.highRiskThreshold ∧
      (updateUserProfile user transaction).frequencyThreshold.count =
        user.frequencyThreshold.count ∧
      (updateUserProfile user transaction).frequencyThreshold.timeWindowHours =
        user.frequencyThreshold.timeWindowHours := by
  exact fun user transaction => ⟨rfl, rfl, rfl, rfl⟩

lemma updateUserProfile_countries_mem (user : User) (transaction : Transaction)
    {c : String} (hc : c ∈ user.usualCountries) :
    c ∈ (updateUserProfile user transaction).usualCountries := by
  simp only [updateUserProfile]
  split_ifs <;> simp [hc]

lemma updateUserProfile_times_mem (user : User) (transaction : Transaction)
    {x : ℤ} (hx : x ∈ user.usualTransactionTimes) :
    x ∈ (updateUserProfile user transaction).usualTransactionTimes := by
  simp only [updateUserProfile]
  split_ifs <;> simp [hx]

lemma updateUserProfile_countries_nodup (user : User) (transaction : Transaction)
    (h : user.usualCountries.Nodup) :
    (updateUserProfile user transaction).usualCountries.Nodup := by
  simp only [updateUserProfile]
  split_ifs with hm
  · exact h
  · exact List.Nodup.append h (List.nodup_singleton _)
      (by simpa [List.disjoint_singleton] using hm)

lemma updateUserProfile_times_nodup (user : User) (transaction : Transaction)
    (h : user.usualTransactionTimes.Nodup) :
    (updateUserProfile user transaction).usualTransactionTimes.Nodup := by
  simp only [updateUserProfile]
  split_ifs with hm
  · exact h
  · exact List.Nodup.append h (List.nodup_singleton _)
      (by simpa [List.disjoint_singleton] using hm)

/-- C4: across any sequence of adapter applications the learned country and
hour lists only grow (every element present before is present after), and
they stay duplicate-free. -/
theorem applyAll_monotone_nodup :
    ∀ (transactions : List Transaction) (user : User),
      user.usualCountries.Nodup → user.usualTransactionTimes.Nodup →
      ((∀ c ∈ user.usualCountries,
          c ∈ (applyAll user transactions).usualCountries) ∧
       (∀ x ∈ user.usualTransactionTimes,
          x ∈ (applyAll user transactions).usualTransactionTimes) ∧
       (applyAll user transactions).usualCountries.Nodup ∧
       (applyAll user transactions).usualTransactionTimes.Nodup) := by
  intro transactions
  induction transactions with
  | nil =>
      intro u hc hh
      exact ⟨fun c hcm => hcm, fun x hxm => hxm, hc, hh⟩
  | cons t ts ih =>
      intro u hc hh
      have hstep : applyAll u (t :: ts) = applyAll (updateUserProfile u t) ts := rfl
      obtain ⟨s1, s2, n1, n2⟩ :=
        ih (updateUserProfile u t)
          (updateUserProfile_countries_nodup u t hc)
          (updateUserProfile_times_nodup u t hh)
      rw [hstep]
      exact ⟨fun c hcm => s1 c (updateUserProfile_countries_mem u t hcm),
             fun x hxm => s2 x (updateUserProfile_times_mem u t hxm), n1, n2⟩

/-- Witness for C4 at a fresh profile and a one-transaction sequence. -/
theorem applyAll_monotone_nodup_witness :
    (defaultUser "u").usualCountries.Nodup ∧
    (defaultUser "u").usualTransactionTimes.Nodup ∧
    ((∀ c ∈ (defaultUser "u").usualCountries,
        c ∈ (applyAll (defaultUser "u")
          [⟨"u", 100, "r", "FR", 0, .pending, none⟩]).usualCountries) ∧
     (∀ x ∈ (defaultUser "u").usualTransactionTimes,
        x ∈ (applyAll (defaultUser "u")
          [⟨"u", 100, "r", "FR", 0, .pending, none⟩]).usualTransactionTimes) ∧
     (applyAll (defaultUser "u")
        [⟨"u", 100, "r", "FR", 0, .pending, none⟩]).usualCountries.Nodup ∧
     (applyAll (defaultUser "u")
        [⟨"u", 100, "r", "FR", 0, .pending, none⟩]).usualTransactionTimes.Nodup) :=
  ⟨by decide, by decide,
    applyAll_monotone_nodup [⟨"u", 100, "r", "FR", 0, .pending, none⟩]
      (defaultUser "u") (by decide) (by decide)⟩

lemma find?_replace (l : List User) (u : User)
    (h : l.any (fun v => v.userId == u.userId) = true) :
    (l.map (fun v => if v.userId == u.userId then u else v)).find?
      (fun v => v.userId == u.userId) = some u := by
  induction l with
  | nil => simp at h
  | cons a l ih =>
      rw [List.map_cons]
      by_cases hae : a.userId = u.userId
      · have hif : (if a.userId == u.userId then u else a) = u := by simp [hae]
        rw [hif]
        exact List.find?_cons_of_pos _ (by simp)
      · have haf : (a.userId == u.userId) = false := beq_eq_false_iff_ne.mpr hae
        have hif : (if a.userId == u.userId then u else a) = a := by simp [haf]
        have h' : l.any (fun v => v.userId == u.userId) = true := by
          rw [List.any_cons, haf] at h
          simpa using h
        rw [hif, List.find?_cons_of_neg _ (by simp [haf])]
        exact ih h'

lemma find?_append_single (l : List User) (u : User)
    (h : l.any (fun v => v.userId == u.userId) = false) :
    (l ++ [u]).find? (fun v => v.userId == u.userId) = some u := by
  induction l with
  | nil =>
      rw [List.nil_append]
      exact List.find?_cons_of_pos _ (by simp)
  | cons a l ih =>
      rw [List.any_cons] at h
      obtain ⟨ha, h'⟩ := Bool.or_eq_false_iff.mp h
      rw [List.cons_append, List.find?_cons_of_neg _ (by simp [ha])]
      exact ih h'

lemma findUser_putUser (s : State) (u : User) (uid : String)
    (huid : u.userId = uid) : findUser (putUser s u) uid = some u := by
  subst huid
  unfold findUser putUser
  split_ifs with h
  · exact find?_replace s.users u h
  · exact find?_append_single s.users u (by simpa using h)

lemma getOrCreateUser_userId (s : State) (uid : String) :
    (getOrCreateUser s uid).1.userId = uid := by
  unfold getOrCreateUser
  cases hf : findUser s uid with
  | none => rfl
  | some u =>
      unfold findUser at hf
      have hp := List.find?_some hf
      simpa using hp

/-- C9: the profile adapter is applied exactly once per evaluated
transaction, unconditionally: whatever the resulting status, the stored
profile after analysis is exactly one adapter application to the profile
that was fetched or created, so its count grew by exactly 1 and exactly
one amount was folded into the running mean. -/
theorem analyzeTransactionS_adapter_once :
    ∀ (now : ℤ) (s : State) (transaction : Transaction),
      findUser (analyzeTransactionS now s transaction).2 transaction.userId =
        some (updateUserProfile (getOrCreateUser s transaction.userId).1
          transaction) ∧
      (updateUserProfile (getOrCreateUser s transaction.userId).1
          transaction).transactionCount =
        (getOrCreateUser s transaction.userId).1.transactionCount + 1 ∧
      (updateUserProfile (getOrCreateUser s transaction.userId).1
          transaction).averageTransactionAmount =
        ((getOrCreateUser s transaction.userId).1.averageTransactionAmount *
            ((getOrCreateUser s transaction.userId).1.transactionCount : ℚ) +
          transaction.amount) /
        (((getOrCreateUser s transaction.userId).1.transactionCount : ℚ) + 1) := by
  intro now s transaction
  have h2 : (analyzeTransactionS now s transaction).2 =
      putUser (getOrCreateUser s transaction.userId).2
        (updateUserProfile (getOrCreateUser s transaction.userId).1 transaction) :=
    rfl
  have huid : (updateUserProfile (getOrCreateUser s transaction.userId).1
      transaction).userId = transaction.userId := by
    have h1 : (updateUserProfile (getOrCreateUser s transaction.userId).1
        transaction).userId = (getOrCreateUser s transaction.userId).1.userId := rfl
    rw [h1, getOrCreateUser_userId]
  refine ⟨?_, rfl, rfl⟩
  rw [h2]
  exact findUser_putUser _ _ _ huid

lemma evaluateRules_empty_baseline (transaction : Transaction) (user : User)
    (recent : List Transaction) (hc : user.usualCountries = [])
    (hh : user.usualTransactionTimes = []) :
    "unusual_country" ∉ (evaluateRules transaction user recent).1 ∧
    "unusual_time" ∉ (evaluateRules transaction user recent).1 := by
  simp only [evaluateRules, hc, hh]
  split_ifs <;> simp_all

/-- C5: for a brand-new userId the profile is created exactly once, with
both learned lists empty, and the first evaluated transaction never
receives the `unusual_country` or `unusual_time` factor. -/
theorem analyzeTransactionS_cold_start :
    ∀ (now : ℤ) (s : State) (transaction : Transaction),
      findUser s transaction.userId = none →
      ("unusual_country" ∉ (analyzeTransactionS now s transaction).1.riskFactors ∧
       "unusual_time" ∉ (analyzeTransactionS now s transaction).1.riskFactors ∧
       findUser (analyzeTransactionS now s transaction).2 transaction.userId =
         some (updateUserProfile (defaultUser transaction.userId) transaction) ∧
       (defaultUser transaction.userId).usualCountries = [] ∧
       (defaultUser transaction.userId).usualTransactionTimes = []) := by
  intro now s transaction hf
  have hg : getOrCreateUser s transaction.userId =
      (defaultUser transaction.userId,
        putUser s (defaultUser transaction.userId)) := by
    unfold getOrCreateUser
    rw [hf]
  have h1 : (analyzeTransactionS now s transaction).1.riskFactors =
      (evaluateRules transaction (getOrCreateUser s transaction.userId).1
        (recentTransactionsOf (getOrCreateUser s transaction.userId).2 now
          (getOrCreateUser s transaction.userId).1 transaction.userId)).1 := rfl
  have h2 : (analyzeTransactionS now s transaction).2 =
      putUser (getOrCreateUser s transaction.userId).2
        (updateUserProfile (getOrCreateUser s transaction.userId).1 transaction) :=
    rfl
  obtain ⟨hcs, hts⟩ :=
    evaluateRules_empty_baseline transaction (defaultUser transaction.userId)
      (recentTransactionsOf (putUser s (defaultUser transaction.userId)) now
        (defaultUser transaction.userId) transaction.userId) rfl rfl
  refine ⟨?_, ?_, ?_, rfl, rfl⟩
  · rw [h1, hg]
    exact hcs
  · rw [h1, hg]
    exact hts
  · rw [h2, hg]
    exact findUser_putUser _ _ _ rfl

/-- Witness for C5 at an empty store and a concrete first transaction. -/
theorem analyzeTransactionS_cold_start_witness :
    findUser ⟨[], []⟩
      (⟨"u1", 50, "r", "FR", 0, .pending, none⟩ : Transaction).userId = none ∧
    ("unusual_country" ∉
       (analyzeTransactionS 0 ⟨[], []⟩
         ⟨"u1", 50, "r", "FR", 0, .pending, none⟩).1.riskFactors ∧
     "unusual_time" ∉
       (analyzeTransactionS 0 ⟨[], []⟩
         ⟨"u1", 50, "r", "FR", 0, .pending, none⟩).1.riskFactors ∧
     findUser (analyzeTransactionS 0 ⟨[], []⟩
         ⟨"u1", 50, "r", "FR", 0, .pending, none⟩).2
       (⟨"u1", 50, "r", "FR", 0, .pending, none⟩ : Transaction).userId =
       some (updateUserProfile
         (defaultUser (⟨"u1", 50, "r", "FR", 0, .pending, none⟩ :
           Transaction).userId)
         ⟨"u1", 50, "r", "FR", 0, .pending, none⟩) ∧
     (defaultUser (⟨"u1", 50, "r", "FR", 0, .pending, none⟩ :
         Transaction).userId).usualCountries = [] ∧
     (defaultUser (⟨"u1", 50, "r", "FR", 0, .pending, none⟩ :
         Transaction).userId).usualTransactionTimes = []) :=
  ⟨rfl, analyzeTransactionS_cold_start 0 ⟨[], []⟩
    ⟨"u1", 50, "r", "FR", 0, .pending, none⟩ rfl⟩

/-- C7 counterexample: with every field present and well-formed, the
finite non-negative amount 0 is rejected by validation, while the
negative amount -5 passes validation. -/
theorem controllerAnalyze_validation_counterexample :
    (controllerAnalyze 0 ⟨[], []⟩ ⟨some "u", some 0, some "r", some "US"⟩).1 =
      .validationError ∧
    (controllerAnalyze 0 ⟨[], []⟩ ⟨some "u", some (-5), some "r", some "US"⟩).1 ≠
      .validationError := by
  constructor
  · decide
  · decide

/-- C7 (amended): validation fails exactly when a required field is
JS-falsy: `userId`, `receiverAddress` or `country` absent or empty, or
`amount` absent or equal to 0.  In particular amount 0 is rejected and
any nonzero amount, negative ones included, passes validation. -/
theorem controllerAnalyze_validation :
    ∀ (now : ℤ) (s : State) (req : AnalyzeRequest),
      (controllerAnalyze now s req).1 = .validationError ↔
        (req.userId = none ∨ req.userId = some "" ∨
         req.amount = none ∨ req.amount = some 0 ∨
         req.receiverAddress = none ∨ req.receiverAddress = some "" ∨
         req.country = none ∨ req.country = some "") := by
  intro now s req
  rcases req with ⟨ou, oa, orc, oc⟩
  cases ou <;> cases oa <;> cases orc <;> cases oc <;>
    simp only [controllerAnalyze] <;> simp <;>
    split_ifs with h <;> simp_all <;> tauto

/-- C8: when validation fails, the store is unchanged: no transaction is
evaluated or persisted and no profile is created or modified. -/
theorem controllerAnalyze_validation_preserves_state :
    ∀ (now : ℤ) (s : State) (req : AnalyzeRequest),
      (controllerAnalyze now s req).1 = .validationError →
      (controllerAnalyze now s req).2 = s := by
  intro now s req h
  rcases req with ⟨ou, oa, orc, oc⟩
  cases ou <;> cases oa <;> cases orc <;> cases oc <;>
    simp only [controllerAnalyze] at h ⊢
  all_goals first
    | rfl
    | (split_ifs at h ⊢ with hc <;> first | rfl | simp at h)

/-- Witness for C8 at a request with a missing userId. -/
theorem controllerAnalyze_validation_preserves_state_witness :
    (controllerAnalyze 0 ⟨[], []⟩ ⟨none, some 5, some "r", some "US"⟩).1 =
      .validationError ∧
    (controllerAnalyze 0 ⟨[], []⟩ ⟨none, some 5, some "r", some "US"⟩).2 =
      ⟨[], []⟩ :=
  ⟨rfl, controllerAnalyze_validation_preserves_state 0 ⟨[], []⟩
    ⟨none, some 5, some "r", some "US"⟩ rfl⟩

/-- C6: end-to-end scenario.  A new user with the default threshold 1000
sends amount 1500, country FR, at hour 3: score 30, factor high_amount
only, status completed.  After the adapter absorbs it, a second
transaction of amount 1500, country DE, at hour 14 (one recent
transaction, below the frequency count) scores 30 + 25 + 15 = 70 and is
rejected. -/
theorem controllerAnalyze_endToEnd :
    (controllerAnalyze 10800000 ⟨[], []⟩
        ⟨some "u1", some 1500, some "addr", some "FR"⟩).1 =
      .success 1500 .completed ⟨30, ["high_amount"]⟩ ∧
    (controllerAnalyze 50400000
        (controllerAnalyze 10800000 ⟨[], []⟩
          ⟨some "u1", some 1500, some "addr", some "FR"⟩).2
        ⟨some "u1", some 1500, some "addr", some "DE"⟩).1 =
      .success 1500 .rejected
        ⟨70, ["high_amount", "unusual_country", "unusual_time"]⟩ := by
  have h1 : controllerAnalyze 10800000 ⟨[], []⟩
      ⟨some "u1", some 1500, some "addr", some "FR"⟩ =
      (.success 1500 .completed ⟨30, ["high_amount"]⟩,
       ⟨[⟨"u1", [3], ["FR"], 1500, 1, 1000, ⟨3, 24⟩⟩],
        [⟨"u1", 1500, "addr", "FR", 10800000, .completed,
          some ⟨30, ["high_amount"]⟩⟩]⟩) := by
    norm_num [controllerAnalyze, analyzeTransactionS, getOrCreateUser,
      findUser, putUser, recentTransactionsOf, evaluateRules,
      determineTransactionStatus, updateUserProfile, defaultUser, getHours] <;>
      decide
  have h2 : (controllerAnalyze 50400000
      (⟨[⟨"u1", [3], ["FR"], 1500, 1, 1000, ⟨3, 24⟩⟩],
        [⟨"u1", 1500, "addr", "FR", 10800000, .completed,
          some ⟨30, ["high_amount"]⟩⟩]⟩ : State)
      ⟨some "u1", some 1500, some "addr", some "DE"⟩).1 =
      .success 1500 .rejected
        ⟨70, ["high_amount", "unusual_country", "unusual_time"]⟩ := by
    norm_num [controllerAnalyze, analyzeTransactionS, getOrCreateUser,
      findUser, putUser, recentTransactionsOf, evaluateRules,
      determineTransactionStatus, updateUserProfile, defaultUser, getHours] <;>
      decide
  refine ⟨by rw [h1], ?_⟩
  rw [h1]
  exact h2
